import Mathlib

/-!
Verification development for the neli netlink codec core.

The Rust sources are shallowly embedded as Lean definitions:
* byte buffers (`bytes::BytesMut` / `bytes::Bytes`) become `List Nat`, each
  entry a byte value; `split_to`/`split_off`/`unsplit` become
  `List.take`/`List.drop`/`(· ++ ·)`;
* the field-driving macros of `src/macros.rs` (`drive_serialize!`,
  `serialize!`, `drive_deserialize!`, `deserialize!`,
  `deserialize_type_size!`, `get_int!`, `put_int!`) become the functions
  `driveSer`, `runFields`, `drivePad`, `serEnd`, `serializeStruct`,
  `driveDe`, `deStrip`, `deEnd`, `deserializeTypeSize`, `getInt`, `putInt`;
* the error taxonomy of `src/err.rs` becomes `SerError`/`DeError`, with
  `SerError.reconstruct` translated from the source;
* `Nlmsghdr` (`src/nl.rs`) and `Nlmsgerr` (`src/err.rs`) become structures
  with serializers/deserializers assembled exactly as the macro expansions
  drive them;
* the constant-mapping macros of `src/consts/macros.rs` (`impl_var`,
  `impl_trait`) become, per generated enum of `src/consts/netfilter.rs`, an
  inductive type with `fromWire`/`toWire`/`isUnrecognized`, and a generic
  two-candidate wrapper mirroring the `impl_trait` expansion;
* `src/utils.rs` (`U32BitFlag`, `U32Bitmask`, `num_to_set_mask`) is embedded
  with checked u32 subtraction/shift (Rust overflow checks become `Option`).

Pieces of the crate referenced by the sources but not contained in them
(the `Nl` trait defaults in `lib.rs`, `alignto` and the `NlmFFlags`/`Nlmsg`
constants in `consts/`) are modelled from the specification; their doc
comments say so explicitly.
-/

/-- Modelled from the spec: `alignto` (defined in `consts/mod.rs`, which is
not among the sources) rounds a length up to the protocol's alignment unit,
fixed at 4 bytes. -/
def alignto (n : Nat) : Nat := (n + 3) / 4 * 4

/-- Little-endian byte encoding of an integer into `w` bytes (the host's
native byte order; `byteorder::NativeEndian` writes used by `put_int!`).
Each byte is reduced mod 256, matching the fixed-width machine integer. -/
def natToBytes : Nat → Nat → List Nat
  | 0, _ => []
  | w + 1, n => n % 256 :: natToBytes w (n / 256)

/-- Little-endian byte decoding (the `byteorder::NativeEndian` reads used by
`get_int!`). -/
def bytesToNat : List Nat → Nat
  | [] => 0
  | b :: rest => b % 256 + 256 * bytesToNat rest

/-- Serialization errors of `src/err.rs`; each constructor carries the byte
buffer, as in the source.  `IOError`'s wrapped `io::Error` payload is
irrelevant to buffer handling and is dropped. -/
inductive SerError
  | Msg (s : String) (b : List Nat)
  | UnexpectedEOB (b : List Nat)
  | BufferNotFilled (b : List Nat)
  | IOError (b : List Nat)
deriving DecidableEq

/-- The buffer attached to a serialization error. -/
def SerError.buffer : SerError → List Nat
  | .Msg _ b => b
  | .UnexpectedEOB b => b
  | .BufferNotFilled b => b
  | .IOError b => b

/-- Rebuild the same error constructor around a new buffer; used to state
`reconstruct`, whose source matches on every constructor and performs the
same `unsplit` sequence in each arm. -/
def SerError.withBuf : SerError → List Nat → SerError
  | .Msg s _, b => .Msg s b
  | .UnexpectedEOB _, b => .UnexpectedEOB b
  | .BufferNotFilled _, b => .BufferNotFilled b
  | .IOError _, b => .IOError b

/-- `SerError::reconstruct` from `src/err.rs`: rejoin the optional prefix,
the buffer carried by the error, and the optional split-off suffix, in that
order (`s.unsplit(b); s.unsplit(e)` is list append in the embedding). -/
def SerError.reconstruct (e : SerError) (front back : Option (List Nat)) : SerError :=
  match front, back with
  | some s, some t => e.withBuf (s ++ e.buffer ++ t)
  | some s, none => e.withBuf (s ++ e.buffer)
  | none, some t => e.withBuf (e.buffer ++ t)
  | none, none => e

instance {ε α : Type} [DecidableEq ε] [DecidableEq α] : DecidableEq (Except ε α) :=
  fun x y =>
  match x, y with
  | .ok a, .ok b =>
    if h : a = b then .isTrue (by rw [h]) else .isFalse fun hc => h (Except.ok.inj hc)
  | .error a, .error b =>
    if h : a = b then .isTrue (by rw [h]) else .isFalse fun hc => h (Except.error.inj hc)
  | .ok _, .error _ => .isFalse Except.noConfusion
  | .error _, .ok _ => .isFalse Except.noConfusion

/-- Deserialization errors of `src/err.rs`. -/
inductive DeError
  | Msg (s : String)
  | UnexpectedEOB
  | BufferNotParsed
  | NullError
  | NoNullError
deriving DecidableEq

/-- The `put_int!` macro of `src/macros.rs`: fail `UnexpectedEOB` when the
destination is smaller than the value's size, `BufferNotFilled` when larger,
otherwise overwrite the whole (exactly sized) buffer with the native-endian
bytes. -/
def putInt (w : Nat) (n : Nat) (bytes : List Nat) : Except SerError (List Nat) :=
  if bytes.length < w then .error (.UnexpectedEOB bytes)
  else if w < bytes.length then .error (.BufferNotFilled bytes)
  else .ok (natToBytes w n)

/-- The `get_int!` macro of `src/macros.rs`: `UnexpectedEOB` when the source
slice is smaller than the integer's size, `BufferNotParsed` when larger,
otherwise the native-endian read. -/
def getInt (w : Nat) (bytes : List Nat) : Except DeError Nat :=
  if bytes.length < w then .error .UnexpectedEOB
  else if w < bytes.length then .error .BufferNotParsed
  else .ok (bytesToNat bytes)

/-- Modelled from the spec: the codec contract (the `Nl` trait of `lib.rs`,
which is not among the sources): `size` is the exact unpadded byte length of
a value, `typeSize` the static size shared by all instances when one exists,
`ser`/`deser` the wire conversions.  `typeName` stands for the
`stringify!($de_type)` text used by `deserialize_type_size!` errors. -/
structure NlCodec (α : Type) where
  typeName : String
  size : α → Nat
  typeSize : Option Nat
  ser : α → List Nat → Except SerError (List Nat)
  deser : List Nat → Except DeError α

/-- The `u32` codec (fixed width 4, native endian). -/
def u32Codec : NlCodec Nat :=
  ⟨"u32", fun _ => 4, some 4, fun n mem => putInt 4 n mem, fun b => getInt 4 b⟩

/-- The `u16` codec (fixed width 2, native endian). -/
def u16Codec : NlCodec Nat :=
  ⟨"u16", fun _ => 2, some 2, fun n mem => putInt 2 n mem, fun b => getInt 2 b⟩

/-- The `libc::c_int` codec: a 32-bit signed integer written as its
two's-complement native-endian bytes. -/
def i32Codec : NlCodec Int :=
  ⟨"libc::c_int", fun _ => 4, some 4,
    fun i mem => putInt 4 (Int.toNat (i % (2 ^ 32))) mem,
    fun b => (getInt 4 b).map fun n : Nat =>
      if n < 2 ^ 31 then (n : Int) else (n : Int) - 2 ^ 32⟩

/-- Modelled from the spec: `NlmFFlags` (defined in `consts/nl.rs`, which is
not among the sources) is the header's 16-bit flags bitmask; the wrapped
value is the OR of the set flags, serialized as a `u16`. -/
structure NlmFFlags where
  mask : Nat
deriving DecidableEq

/-- `NlmFFlags::empty()`: no flag set. -/
def NlmFFlags.empty : NlmFFlags := ⟨0⟩

/-- Codec for the flags field: a `u16` on the wire. -/
def nlmFFlagsCodec : NlCodec NlmFFlags :=
  ⟨"NlmFFlags", fun _ => 2, some 2,
    fun f mem => putInt 2 f.mask mem,
    fun b => (getInt 2 b).map NlmFFlags.mk⟩

/-!
Enumerated constant types generated by the `impl_var!` macro of
`src/consts/macros.rs` for the tables in `src/consts/netfilter.rs`.
The macro's `From<$ty>` is a sequence of guarded match arms
(`i if i == $val => $name::$var`) scanned in declaration order, embedded as
nested conditionals; `From<$name>` maps each named variant to its bound
value and the fallback variant to its stored raw value.
-/

/-- `NfLogAttr` (`impl_var!` over `u16`), `src/consts/netfilter.rs`.
The source variant `Prefix` is renamed `Pfx` (reserved word here). -/
inductive NfLogAttr
  | PacketHdr | Mark | Timestamp | IfindexIndev | IfindexOutdev
  | IfindexPhyindev | IfindexPhyoutdev | Hwaddr | Payload | Pfx
  | Uid | Seq | SeqGlobal | Gid | Hwtype | Hwheader | Hwlen | Ct | CtInfo
  | UnrecognizedVariant (v : Nat)
deriving DecidableEq

/-- `From<u16> for NfLogAttr`. -/
def NfLogAttr.fromWire (v : Nat) : NfLogAttr :=
  if v = 1 then .PacketHdr else if v = 2 then .Mark
  else if v = 3 then .Timestamp else if v = 4 then .IfindexIndev
  else if v = 5 then .IfindexOutdev else if v = 6 then .IfindexPhyindev
  else if v = 7 then .IfindexPhyoutdev else if v = 8 then .Hwaddr
  else if v = 9 then .Payload else if v = 10 then .Pfx
  else if v = 11 then .Uid else if v = 12 then .Seq
  else if v = 13 then .SeqGlobal else if v = 14 then .Gid
  else if v = 15 then .Hwtype else if v = 16 then .Hwheader
  else if v = 17 then .Hwlen else if v = 18 then .Ct
  else if v = 19 then .CtInfo else .UnrecognizedVariant v

/-- `From<NfLogAttr> for u16`. -/
def NfLogAttr.toWire : NfLogAttr → Nat
  | .PacketHdr => 1 | .Mark => 2 | .Timestamp => 3 | .IfindexIndev => 4
  | .IfindexOutdev => 5 | .IfindexPhyindev => 6 | .IfindexPhyoutdev => 7
  | .Hwaddr => 8 | .Payload => 9 | .Pfx => 10 | .Uid => 11 | .Seq => 12
  | .SeqGlobal => 13 | .Gid => 14 | .Hwtype => 15 | .Hwheader => 16
  | .Hwlen => 17 | .Ct => 18 | .CtInfo => 19
  | .UnrecognizedVariant i => i

/-- `NfLogCfg` (`impl_var!` over `u16`), `src/consts/netfilter.rs`. -/
inductive NfLogCfg
  | Cmd | Mode | NlBufSize | Timeout | QThresh | Flags
  | UnrecognizedVariant (v : Nat)
deriving DecidableEq

/-- `From<u16> for NfLogCfg`. -/
def NfLogCfg.fromWire (v : Nat) : NfLogCfg :=
  if v = 1 then .Cmd else if v = 2 then .Mode else if v = 3 then .NlBufSize
  else if v = 4 then .Timeout else if v = 5 then .QThresh
  else if v = 6 then .Flags else .UnrecognizedVariant v

/-- `From<NfLogCfg> for u16`. -/
def NfLogCfg.toWire : NfLogCfg → Nat
  | .Cmd => 1 | .Mode => 2 | .NlBufSize => 3 | .Timeout => 4
  | .QThresh => 5 | .Flags => 6 | .UnrecognizedVariant i => i

/-- `NetfilterMsg` (`impl_var!` over `u16`), `src/consts/netfilter.rs`. -/
inductive NetfilterMsg
  | LogPacket | LogConfig | UnrecognizedVariant (v : Nat)
deriving DecidableEq

/-- `From<u16> for NetfilterMsg`. -/
def NetfilterMsg.fromWire (v : Nat) : NetfilterMsg :=
  if v = 0x0400 then .LogPacket else if v = 0x0401 then .LogConfig
  else .UnrecognizedVariant v

/-- `From<NetfilterMsg> for u16`. -/
def NetfilterMsg.toWire : NetfilterMsg → Nat
  | .LogPacket => 0x0400 | .LogConfig => 0x0401 | .UnrecognizedVariant i => i

/-- `LogCmd` (`impl_var!` over `u8`), `src/consts/netfilter.rs`. -/
inductive LogCmd
  | Bind | Unbind | PfBind | PfUnbind | UnrecognizedVariant (v : Nat)
deriving DecidableEq

/-- `From<u8> for LogCmd`. -/
def LogCmd.fromWire (v : Nat) : LogCmd :=
  if v = 1 then .Bind else if v = 2 then .Unbind else if v = 3 then .PfBind
  else if v = 4 then .PfUnbind else .UnrecognizedVariant v

/-- `From<LogCmd> for u8`. -/
def LogCmd.toWire : LogCmd → Nat
  | .Bind => 1 | .Unbind => 2 | .PfBind => 3 | .PfUnbind => 4
  | .UnrecognizedVariant i => i

/-- `LogCmd::is_unrecognized`, generated by `impl_var!`. -/
def LogCmd.isUnrecognized : LogCmd → Bool
  | .UnrecognizedVariant _ => true
  | _ => false

/-- `LogCopyMode` (`impl_var!` over `u8`), `src/consts/netfilter.rs`. -/
inductive LogCopyMode
  | None | Meta | Packet | UnrecognizedVariant (v : Nat)
deriving DecidableEq

/-- `From<u8> for LogCopyMode`. -/
def LogCopyMode.fromWire (v : Nat) : LogCopyMode :=
  if v = 0 then .None else if v = 1 then .Meta else if v = 2 then .Packet
  else .UnrecognizedVariant v

/-- `From<LogCopyMode> for u8`. -/
def LogCopyMode.toWire : LogCopyMode → Nat
  | .None => 0 | .Meta => 1 | .Packet => 2 | .UnrecognizedVariant i => i

/-- `LogCopyMode::is_unrecognized`, generated by `impl_var!`. -/
def LogCopyMode.isUnrecognized : LogCopyMode → Bool
  | .UnrecognizedVariant _ => true
  | _ => false

/-- Modelled from the spec: the `Nlmsg` type-tag constants of `consts/nl.rs`
(not among the sources), generated through the same `impl_var!` mechanism;
the spec names wire value 1 the no-op marker, and the remaining variants
follow the standard netlink control-message table. -/
inductive Nlmsg
  | Noop | Error | Done | Overrun | UnrecognizedVariant (v : Nat)
deriving DecidableEq

/-- `From<u16> for Nlmsg` (declaration-order scan with fallback). -/
def Nlmsg.fromWire (v : Nat) : Nlmsg :=
  if v = 1 then .Noop else if v = 2 then .Error else if v = 3 then .Done
  else if v = 4 then .Overrun else .UnrecognizedVariant v

/-- `From<Nlmsg> for u16`. -/
def Nlmsg.toWire : Nlmsg → Nat
  | .Noop => 1 | .Error => 2 | .Done => 3 | .Overrun => 4
  | .UnrecognizedVariant i => i

/-- Codec for `Nlmsg` as generated by `impl_var!`: serialize by converting
to the wire integer, deserialize by reading it and converting back. -/
def nlmsgCodec : NlCodec Nlmsg :=
  ⟨"Nlmsg", fun _ => 2, some 2,
    fun t mem => putInt 2 t.toWire mem,
    fun b => (getInt 2 b).map Nlmsg.fromWire⟩

/-!
The `impl_trait!` macro's wrapper type.  Its `From<$to_from_ty>` expansion
tries each candidate enum in declaration order (`let var = Enum::from(v);
if !var.is_unrecognized() { return Wrapper::Enum(var); }`) and falls back to
`UnrecognizedConst(v)`.  `ConstEnum` packages the three operations a
candidate contributes; `wrapper2From` is the expansion for two candidates.
-/

/-- The operations a candidate enum brings to an `impl_trait!` wrapper. -/
structure ConstEnum (α : Type) where
  fromWire : Nat → α
  toWire : α → Nat
  isUnrecognized : α → Bool

/-- Wrapper over two candidate enums sharing one wire-value space, as
generated by `impl_trait!` for two candidates. -/
inductive Wrapper2 (α β : Type)
  | A (a : α)
  | B (b : β)
  | UnrecognizedConst (v : Nat)
deriving DecidableEq

/-- `From<$to_from_ty>` for the two-candidate wrapper: candidates tried in
declaration order, first recognized match wins. -/
def wrapper2From {α β : Type} (ea : ConstEnum α) (eb : ConstEnum β) (v : Nat) :
    Wrapper2 α β :=
  let var := ea.fromWire v
  if ¬ ea.isUnrecognized var then .A var
  else
    let var2 := eb.fromWire v
    if ¬ eb.isUnrecognized var2 then .B var2
    else .UnrecognizedConst v

/-- `LogCmd` as a wrapper candidate. -/
def logCmdCE : ConstEnum LogCmd := ⟨LogCmd.fromWire, LogCmd.toWire, LogCmd.isUnrecognized⟩

/-- `LogCopyMode` as a wrapper candidate. -/
def logCopyModeCE : ConstEnum LogCopyMode :=
  ⟨LogCopyMode.fromWire, LogCopyMode.toWire, LogCopyMode.isUnrecognized⟩

/-- `LogCfgCmdWrapper`, the wrapper the sources actually instantiate
(`impl_trait!` with the single candidate `LogCmd`). -/
inductive LogCfgCmdWrapper
  | LogCmd (c : LogCmd)
  | UnrecognizedConst (v : Nat)
deriving DecidableEq

/-- `From<u8> for LogCfgCmdWrapper` (single-candidate expansion). -/
def LogCfgCmdWrapper.fromWire (v : Nat) : LogCfgCmdWrapper :=
  let var := LogCmd.fromWire v
  if ¬ var.isUnrecognized then .LogCmd var
  else .UnrecognizedConst v

/-!
The buffer-splitting engine of `src/macros.rs`.

`driveSer` is the positional arm of `drive_serialize!`
(`$to_ser, $buffer, $pos, $size`): bounds check, `split_off($pos)`,
`split_to(size)`, serialize the sub-region, rejoin on success, reconstruct
prefix/failing region/suffix on failure.  `drivePad` is the `PAD` arm,
`serEnd` the `END` arm; `serializeStruct` chains them the way the
`serialize!` macro does.  The deserialization driver mirrors them with
non-destructive slicing.
-/

/-- Positional `drive_serialize!` arm. -/
def driveSer (sz : Nat) (f : List Nat → Except SerError (List Nat))
    (buffer : List Nat) (pos : Nat) : Except SerError (List Nat × Nat) :=
  if buffer.length < pos + sz then .error (.UnexpectedEOB buffer)
  else
    match f ((buffer.drop pos).take sz) with
    | .ok b => .ok (buffer.take pos ++ b ++ buffer.drop (pos + sz), pos + sz)
    | .error e =>
        .error (e.reconstruct (some (buffer.take pos)) (some (buffer.drop (pos + sz))))

/-- The field list the `serialize!` macro walks: for each field, its
computed size (`$to_ser.$size()`) and its serializer applied to the value. -/
def runFields : List (Nat × (List Nat → Except SerError (List Nat))) →
    List Nat → Nat → Except SerError (List Nat × Nat)
  | [], buffer, pos => .ok (buffer, pos)
  | (sz, f) :: rest, buffer, pos =>
    match driveSer sz f buffer pos with
    | .ok (b, p) => runFields rest b p
    | .error e => .error e

/-- Modelled from the spec: the `Nl` trait's `pad` default method (`lib.rs`
is not among the sources) zero-fills the pad region — the final
`aligned_size() - size()` bytes — of the region handed to it.  `p` is that
pad length; the `min` keeps the function total on regions shorter than `p`,
which the repository's padded types (sizes at least 16) never produce. -/
def padFn (p : Nat) (mem : List Nat) : List Nat :=
  mem.take (mem.length - p) ++ List.replicate (min p mem.length) 0

/-- `PAD` arm of `drive_serialize!`: `size` is `self.asize() - self.size()`
(`padAmt`); after the bounds check the source does
`$buffer.split_off(size)`, pads the split-off tail region, rejoins, and
advances the cursor by `size`.  The modelled `pad` never fails, so the
source's error-reconstruction branch is unreachable here. -/
def drivePad (padAmt : Nat) (buffer : List Nat) (pos : Nat) :
    Except SerError (List Nat × Nat) :=
  if buffer.length < pos + padAmt then .error (.UnexpectedEOB buffer)
  else .ok (buffer.take padAmt ++ padFn padAmt (buffer.drop padAmt), pos + padAmt)

/-- `END` arm of `drive_serialize!`: the cursor must equal the buffer's full
length, otherwise `BufferNotFilled`. -/
def serEnd (buffer : List Nat) (pos : Nat) : Except SerError (List Nat) :=
  if buffer.length = pos then .ok buffer else .error (.BufferNotFilled buffer)

/-- The `serialize!` macro with `PAD`: drive every field from cursor 0, pad,
then check the end condition. -/
def serializeStruct (fields : List (Nat × (List Nat → Except SerError (List Nat))))
    (padAmt : Nat) (buffer : List Nat) : Except SerError (List Nat) :=
  match runFields fields buffer 0 with
  | .error e => .error e
  | .ok (b, p) =>
    match drivePad padAmt b p with
    | .error e => .error e
    | .ok (b2, p2) => serEnd b2 p2

/-- `deserialize_type_size!`: the field's static size, or a `DeError::Msg`
naming the type when the type reports none. -/
def deserializeTypeSize (typeName : String) (ts : Option Nat) : Except DeError Nat :=
  match ts with
  | some s => .ok s
  | none => .error (.Msg ("Type " ++ typeName ++ " has no static size associated with it"))

/-- Positional `drive_deserialize!` arm: bounds check, then deserialize the
window `buffer[pos .. pos + sz]` and advance the cursor. -/
def driveDe {α : Type} (f : List Nat → Except DeError α) (sz : Nat)
    (buffer : List Nat) (pos : Nat) : Except DeError (α × Nat) :=
  if buffer.length < pos + sz then .error .UnexpectedEOB
  else
    match f ((buffer.drop pos).take sz) with
    | .ok t => .ok (t, pos + sz)
    | .error e => .error e

/-- `STRIP` arm of `drive_deserialize!`: consume `sz` trailing bytes (the
declared padding) without parsing them. -/
def deStrip (sz : Nat) (buffer : List Nat) (pos : Nat) : Except DeError Nat :=
  if buffer.length < pos + sz then .error .UnexpectedEOB else .ok (pos + sz)

/-- `END` arm of `drive_deserialize!`: the cursor must equal the buffer's
length, otherwise `BufferNotParsed`. -/
def deEnd (buffer : List Nat) (pos : Nat) : Except DeError Unit :=
  if buffer.length = pos then .ok () else .error .BufferNotParsed

/-- `NlEmpty` (`src/nl.rs`): the empty payload. -/
inductive NlEmpty
  | mk
deriving DecidableEq

/-- Codec for `NlEmpty`: size 0, serialization returns the buffer untouched,
deserialization ignores it. -/
def nlEmptyCodec : NlCodec NlEmpty :=
  ⟨"NlEmpty", fun _ => 0, some 0, fun _ mem => .ok mem, fun _ => .ok .mk⟩

/-- `Nlmsghdr` (`src/nl.rs`), generic over the type tag and the payload. -/
structure Nlmsghdr (T P : Type) where
  nl_len : Nat
  nl_type : T
  nl_flags : NlmFFlags
  nl_seq : Nat
  nl_pid : Nat
  nl_payload : P
deriving DecidableEq

/-- `Nlmsghdr::size`: the sum of the field sizes, in wire order. -/
def nlmsghdrSize {T P : Type} (tc : NlCodec T) (pc : NlCodec P)
    (v : Nlmsghdr T P) : Nat :=
  u32Codec.size v.nl_len + tc.size v.nl_type + nlmFFlagsCodec.size v.nl_flags
    + u32Codec.size v.nl_seq + u32Codec.size v.nl_pid + pc.size v.nl_payload

/-- `Nlmsghdr::new`: sequence and pid default to 0; the declared length
defaults to the computed `size()` unless overridden. -/
def Nlmsghdr.new {T P : Type} (tc : NlCodec T) (pc : NlCodec P)
    (nlLen : Option Nat) (ty : T) (flags : NlmFFlags)
    (seq pid : Option Nat) (payload : P) : Nlmsghdr T P :=
  let nl : Nlmsghdr T P :=
    { nl_len := 0, nl_type := ty, nl_flags := flags, nl_seq := seq.getD 0,
      nl_pid := pid.getD 0, nl_payload := payload }
  { nl with nl_len := nlLen.getD (nlmsghdrSize tc pc nl) }

/-- `Nlmsghdr::serialize`: the `serialize! { PAD self; mem; ... }` expansion
over the six fields, with pad amount `self.asize() - self.size()`. -/
def nlmsghdrSer {T P : Type} (tc : NlCodec T) (pc : NlCodec P)
    (v : Nlmsghdr T P) (mem : List Nat) : Except SerError (List Nat) :=
  serializeStruct
    [(u32Codec.size v.nl_len, u32Codec.ser v.nl_len),
     (tc.size v.nl_type, tc.ser v.nl_type),
     (nlmFFlagsCodec.size v.nl_flags, nlmFFlagsCodec.ser v.nl_flags),
     (u32Codec.size v.nl_seq, u32Codec.ser v.nl_seq),
     (u32Codec.size v.nl_pid, u32Codec.ser v.nl_pid),
     (pc.size v.nl_payload, pc.ser v.nl_payload)]
    (alignto (nlmsghdrSize tc pc v) - nlmsghdrSize tc pc v) mem

/-- `Nlmsghdr::deserialize`: the `deserialize! { STRIP Self; mem; ... }`
expansion — each field's size from `deserialize_type_size!`, fields read in
wire order, then the `STRIP` span `alignto(nl_len) - nl_len` computed from
the parsed declared length, then the `END` check. -/
def nlmsghdrDe {T P : Type} (tc : NlCodec T) (pc : NlCodec P)
    (mem : List Nat) : Except DeError (Nlmsghdr T P) :=
  Except.bind (deserializeTypeSize "u32" u32Codec.typeSize) fun s1 =>
  Except.bind (driveDe u32Codec.deser s1 mem 0) fun r1 =>
  Except.bind (deserializeTypeSize tc.typeName tc.typeSize) fun s2 =>
  Except.bind (driveDe tc.deser s2 mem r1.2) fun r2 =>
  Except.bind (deserializeTypeSize "NlmFFlags" nlmFFlagsCodec.typeSize) fun s3 =>
  Except.bind (driveDe nlmFFlagsCodec.deser s3 mem r2.2) fun r3 =>
  Except.bind (deserializeTypeSize "u32" u32Codec.typeSize) fun s4 =>
  Except.bind (driveDe u32Codec.deser s4 mem r3.2) fun r4 =>
  Except.bind (deserializeTypeSize "u32" u32Codec.typeSize) fun s5 =>
  Except.bind (driveDe u32Codec.deser s5 mem r4.2) fun r5 =>
  Except.bind (deserializeTypeSize pc.typeName pc.typeSize) fun s6 =>
  Except.bind (driveDe pc.deser s6 mem r5.2) fun r6 =>
  Except.bind (deStrip (alignto r1.1 - r1.1) mem r6.2) fun posEnd =>
  Except.bind (deEnd mem posEnd) fun _ =>
  .ok { nl_len := r1.1, nl_type := r2.1, nl_flags := r3.1, nl_seq := r4.1,
        nl_pid := r5.1, nl_payload := r6.1 }

/-- `Nlmsgerr` (`src/err.rs`): the protocol-level error packet. -/
structure Nlmsgerr (T : Type) where
  error : Int
  nlmsg : Nlmsghdr T NlEmpty
deriving DecidableEq

/-- `Nlmsgerr::size`. -/
def nlmsgerrSize {T : Type} (tc : NlCodec T) (v : Nlmsgerr T) : Nat :=
  i32Codec.size v.error + nlmsghdrSize tc nlEmptyCodec v.nlmsg

/-- `Nlmsgerr::serialize`: `serialize! { PAD self; mem; error; nlmsg }`. -/
def nlmsgerrSer {T : Type} (tc : NlCodec T) (v : Nlmsgerr T)
    (mem : List Nat) : Except SerError (List Nat) :=
  serializeStruct
    [(i32Codec.size v.error, i32Codec.ser v.error),
     (nlmsghdrSize tc nlEmptyCodec v.nlmsg, nlmsghdrSer tc nlEmptyCodec v.nlmsg)]
    (alignto (nlmsgerrSize tc v) - nlmsgerrSize tc v) mem

/-- `Nlmsgerr::deserialize`: the error code over 4 bytes, the inner header
over `mem.len() - 4` bytes (`libc::c_int::type_size()` is 4), then —
exactly as the source writes it — a `STRIP` span of `mem.len()` bytes and
the `END` check. -/
def nlmsgerrDe {T : Type} (tc : NlCodec T) (mem : List Nat) :
    Except DeError (Nlmsgerr T) :=
  Except.bind (deserializeTypeSize "libc::c_int" i32Codec.typeSize) fun s1 =>
  Except.bind (driveDe i32Codec.deser s1 mem 0) fun r1 =>
  Except.bind (driveDe (nlmsghdrDe tc nlEmptyCodec) (mem.length - 4) mem r1.2) fun r2 =>
  Except.bind (deStrip mem.length mem r2.2) fun posEnd =>
  Except.bind (deEnd mem posEnd) fun _ =>
  .ok { error := r1.1, nlmsg := r2.1 }

/-!
`src/utils.rs`: the bitmask utility.  The u32 arithmetic of
`num_to_set_mask` (`1 << (grp - 1)`) is embedded with Rust's checked
semantics: subtraction below zero and shifts of 32 or more are arithmetic
overflows (panics under overflow checks), modelled as `none`.
-/

/-- Checked `u32` subtraction. -/
def u32CheckedSub (a b : Nat) : Option Nat :=
  if b ≤ a then some (a - b) else none

/-- Checked `u32` shift-left: a shift amount of 32 or more overflows; the
result is reduced into the 32-bit range. -/
def u32CheckedShl (a k : Nat) : Option Nat :=
  if k < 32 then some ((a <<< k) % 2 ^ 32) else none

/-- `num_to_set_mask` (`src/utils.rs`): `1 << (grp - 1)`. -/
def num_to_set_mask (grp : Nat) : Option Nat :=
  (u32CheckedSub grp 1).bind (u32CheckedShl 1)

/-- `U32BitFlag::into_bitmask`: the bitmask holding the flag's bit. -/
def U32BitFlag.intoBitmask (bitNum : Nat) : Option Nat :=
  num_to_set_mask bitNum

/-- `U32Bitmask::is_set`: `set_mask & self.0 == set_mask`. -/
def U32Bitmask.is_set (m : Nat) (bit : Nat) : Option Bool :=
  (num_to_set_mask bit).map fun setMask => setMask &&& m == setMask

/-- A field serializer is well-behaved for buffer accounting when it returns
a buffer of the input's length on success and attaches a buffer of the
input's length to any error. -/
def SerOk (f : List Nat → Except SerError (List Nat)) : Prop :=
  (∀ b b', f b = .ok b' → b'.length = b.length) ∧
  (∀ b e, f b = .error e → e.buffer.length = b.length)

/-!
Concrete fixtures used by the theorems below; `hdr0` is the header the
repository's own `test_nlmsghdr_serialize` test constructs (no payload,
`Nlmsg::Noop`, empty flags, defaulted sequence, pid and length).
-/

/-- The test header: `Nlmsghdr::new(None, Nlmsg::Noop, NlmFFlags::empty(), None, None, NlEmpty)`. -/
def hdr0 : Nlmsghdr Nlmsg NlEmpty :=
  Nlmsghdr.new nlmsgCodec nlEmptyCodec none .Noop NlmFFlags.empty none none .mk

/-- A well-formed protocol-level error packet wrapping `hdr0`. -/
def err0 : Nlmsgerr Nlmsg := ⟨0, hdr0⟩

/-- The 16 bytes `hdr0` serializes to: declared length 16, type tag 1, all
other fields zero (native little-endian order). -/
def nlNoopBytes : List Nat := [16, 0, 0, 0, 1, 0, 0, 0, 0, 0, 0, 0, 0, 0, 0, 0]

/-- The 20 bytes `err0` serializes to: error code 0, then `nlNoopBytes`. -/
def errBytes : List Nat :=
  [0, 0, 0, 0, 16, 0, 0, 0, 1, 0, 0, 0, 0, 0, 0, 0, 0, 0, 0, 0]

/-- A 16-byte buffer whose declared length (12) is shorter than the 16 bytes
of parsed fields. -/
def shortLenBytes : List Nat := [12, 0, 0, 0, 1, 0, 0, 0, 0, 0, 0, 0, 0, 0, 0, 0]

/-- The header `shortLenBytes` parses to. -/
def shortLenHdr : Nlmsghdr Nlmsg NlEmpty := ⟨12, .Noop, ⟨0⟩, 0, 0, .mk⟩

/-- A payload codec with no static size (a variable-length type such as a
string); used to exercise the `deserialize_type_size!` failure path. -/
def varLenCodec : NlCodec (List Nat) :=
  ⟨"Vec<u8>", fun x => x.length, none, fun _ mem => .ok mem, fun b => .ok b⟩

/-! Helper lemmas about the embedding. -/

theorem ebind_ok {ε α β : Type} (a : α) (f : α → Except ε β) :
    Except.bind (Except.ok a) f = f a := rfl

theorem ebind_err {ε α β : Type} (e : ε) (f : α → Except ε β) :
    Except.bind (Except.error e : Except ε α) f = Except.error e := rfl

theorem window_length (buffer : List Nat) (pos sz : Nat)
    (h : pos + sz ≤ buffer.length) : ((buffer.drop pos).take sz).length = sz := by
  simp [List.length_take, List.length_drop]
  omega

theorem natToBytes_length (w n : Nat) : (natToBytes w n).length = w := by
  induction w generalizing n with
  | zero => rfl
  | succ w ih => simp [natToBytes, ih]

theorem getInt_exact (w : Nat) (b : List Nat) (h : b.length = w) :
    getInt w b = .ok (bytesToNat b) := by
  unfold getInt
  rw [if_neg (by omega), if_neg (by omega)]

theorem putInt_exact (w n : Nat) (b : List Nat) (h : b.length = w) :
    putInt w n b = .ok (natToBytes w n) := by
  unfold putInt
  rw [if_neg (by omega), if_neg (by omega)]

theorem driveDe_eob {α : Type} (f : List Nat → Except DeError α) (sz : Nat)
    (buffer : List Nat) (pos : Nat) (h : buffer.length < pos + sz) :
    driveDe f sz buffer pos = .error .UnexpectedEOB := by
  unfold driveDe
  rw [if_pos h]

theorem driveDe_ok {α : Type} (f : List Nat → Except DeError α) (sz : Nat)
    (buffer : List Nat) (pos : Nat) (t : α) (h : pos + sz ≤ buffer.length)
    (hf : f ((buffer.drop pos).take sz) = .ok t) :
    driveDe f sz buffer pos = .ok (t, pos + sz) := by
  unfold driveDe
  rw [if_neg (by omega), hf]

theorem driveDe_err {α : Type} (f : List Nat → Except DeError α) (sz : Nat)
    (buffer : List Nat) (pos : Nat) (e : DeError) (h : pos + sz ≤ buffer.length)
    (hf : f ((buffer.drop pos).take sz) = .error e) :
    driveDe f sz buffer pos = .error e := by
  unfold driveDe
  rw [if_neg (by omega), hf]

theorem u32Codec_deser_exact (b : List Nat) (h : b.length = 4) :
    u32Codec.deser b = .ok (bytesToNat b) := getInt_exact 4 b h

theorem nlmsgCodec_deser_exact (b : List Nat) (h : b.length = 2) :
    nlmsgCodec.deser b = .ok (Nlmsg.fromWire (bytesToNat b)) := by
  show (getInt 2 b).map Nlmsg.fromWire = _
  rw [getInt_exact 2 b h]
  rfl

theorem nlmFFlagsCodec_deser_exact (b : List Nat) (h : b.length = 2) :
    nlmFFlagsCodec.deser b = .ok ⟨bytesToNat b⟩ := by
  show (getInt 2 b).map NlmFFlags.mk = _
  rw [getInt_exact 2 b h]
  rfl

theorem reconstruct_some_some (e : SerError) (s t : List Nat) :
    (e.reconstruct (some s) (some t)).buffer = s ++ e.buffer ++ t := by
  cases e <;> rfl

theorem reconstruct_some_none (e : SerError) (s : List Nat) :
    (e.reconstruct (some s) none).buffer = s ++ e.buffer := by
  cases e <;> rfl

theorem serOk_putInt (w n : Nat) : SerOk (putInt w n) := by
  constructor
  · intro b b' h
    unfold putInt at h
    split at h
    · cases h
    · split at h
      · cases h
      · cases h
        rw [natToBytes_length]
        omega
  · intro b e h
    unfold putInt at h
    split at h
    · cases h; rfl
    · split at h
      · cases h; rfl
      · cases h

theorem driveSer_ok_len (sz : Nat) (f : List Nat → Except SerError (List Nat))
    (buffer : List Nat) (pos : Nat) (b : List Nat) (p : Nat) (hf : SerOk f)
    (h : driveSer sz f buffer pos = .ok (b, p)) :
    b.length = buffer.length ∧ p = pos + sz := by
  unfold driveSer at h
  split at h
  · cases h
  · rename_i hc
    split at h
    · rename_i b' hb'
      cases h
      have hw : ((buffer.drop pos).take sz).length = sz :=
        window_length buffer pos sz (by omega)
      have := hf.1 _ _ hb'
      constructor
      · simp [List.length_append, List.length_take, List.length_drop]
        omega
      · rfl
    · cases h

theorem driveSer_err_len (sz : Nat) (f : List Nat → Except SerError (List Nat))
    (buffer : List Nat) (pos : Nat) (e : SerError) (hf : SerOk f)
    (h : driveSer sz f buffer pos = .error e) :
    e.buffer.length = buffer.length := by
  unfold driveSer at h
  split at h
  · cases h; rfl
  · rename_i hc
    split at h
    · cases h
    · rename_i e' he'
      cases h
      have hw : ((buffer.drop pos).take sz).length = sz :=
        window_length buffer pos sz (by omega)
      have := hf.2 _ _ he'
      rw [reconstruct_some_some]
      simp [List.length_append, List.length_take, List.length_drop]
      omega

theorem runFields_len (fields : List (Nat × (List Nat → Except SerError (List Nat))))
    (hf : ∀ f ∈ fields, SerOk f.2) :
    ∀ (buffer : List Nat) (pos : Nat),
      (∀ b p, runFields fields buffer pos = .ok (b, p) → b.length = buffer.length) ∧
      (∀ e, runFields fields buffer pos = .error e → e.buffer.length = buffer.length) := by
  induction fields with
  | nil =>
    intro buffer pos
    constructor
    · intro b p h
      cases h
      rfl
    · intro e h
      cases h
  | cons fd rest ih =>
    intro buffer pos
    have hfd : SerOk fd.2 := hf fd (by simp)
    have hrest : ∀ f ∈ rest, SerOk f.2 := fun f hmem => hf f (by simp [hmem])
    constructor
    · intro b p h
      unfold runFields at h
      split at h
      · rename_i b1 p1 hstep
        have h1 := driveSer_ok_len fd.1 fd.2 buffer pos b1 p1 hfd hstep
        have h2 := ((ih hrest) b1 p1).1 b p h
        omega
      · cases h
    · intro e h
      unfold runFields at h
      split at h
      · rename_i b1 p1 hstep
        have h1 := driveSer_ok_len fd.1 fd.2 buffer pos b1 p1 hfd hstep
        have h2 := ((ih hrest) b1 p1).2 e h
        omega
      · rename_i e2 hstep
        injection h with h
        subst h
        exact driveSer_err_len fd.1 fd.2 buffer pos _ hfd hstep

theorem padFn_length (p : Nat) (mem : List Nat) : (padFn p mem).length = mem.length := by
  unfold padFn
  simp [List.length_append, List.length_take, List.length_replicate]
  omega

theorem drivePad_ok_len (padAmt : Nat) (buffer : List Nat) (pos : Nat)
    (b : List Nat) (p : Nat) (h : drivePad padAmt buffer pos = .ok (b, p)) :
    b.length = buffer.length ∧ p = pos + padAmt := by
  unfold drivePad at h
  split at h
  · cases h
  · rename_i hc
    cases h
    constructor
    · simp [List.length_append, List.length_take, padFn_length, List.length_drop]
      omega
    · rfl

theorem drivePad_err_len (padAmt : Nat) (buffer : List Nat) (pos : Nat)
    (e : SerError) (h : drivePad padAmt buffer pos = .error e) :
    e.buffer.length = buffer.length := by
  unfold drivePad at h
  split at h
  · cases h; rfl
  · cases h

theorem serializeStruct_err_len
    (fields : List (Nat × (List Nat → Except SerError (List Nat))))
    (padAmt : Nat) (buffer : List Nat) (e : SerError)
    (hf : ∀ f ∈ fields, SerOk f.2)
    (h : serializeStruct fields padAmt buffer = .error e) :
    e.buffer.length = buffer.length := by
  unfold serializeStruct at h
  split at h
  · rename_i e' hrun
    cases h
    exact (runFields_len fields hf buffer 0).2 e hrun
  · rename_i b1 p1 hrun
    have h1 := (runFields_len fields hf buffer 0).1 b1 p1 hrun
    split at h
    · rename_i e' hpad
      cases h
      have := drivePad_err_len padAmt b1 p1 e hpad
      omega
    · rename_i b2 p2 hpad
      have h2 := drivePad_ok_len padAmt b1 p1 b2 p2 hpad
      unfold serEnd at h
      split at h
      · cases h
      · cases h
        show b2.length = buffer.length
        omega

theorem serializeStruct_ok_len
    (fields : List (Nat × (List Nat → Except SerError (List Nat))))
    (padAmt : Nat) (buffer : List Nat) (b : List Nat)
    (hf : ∀ f ∈ fields, SerOk f.2)
    (h : serializeStruct fields padAmt buffer = .ok b) :
    b.length = buffer.length := by
  unfold serializeStruct at h
  split at h
  · cases h
  · rename_i b1 p1 hrun
    have h1 := (runFields_len fields hf buffer 0).1 b1 p1 hrun
    split at h
    · cases h
    · rename_i b2 p2 hpad
      have h2 := drivePad_ok_len padAmt b1 p1 b2 p2 hpad
      unfold serEnd at h
      split at h
      · cases h
        omega
      · cases h

theorem serOk_nlEmptySer (x : NlEmpty) : SerOk (nlEmptyCodec.ser x) := by
  constructor
  · intro b b' h
    cases h
    rfl
  · intro b e h
    cases h

theorem nlmsghdr_fields_serOk (v : Nlmsghdr Nlmsg NlEmpty) :
    ∀ f ∈ [(u32Codec.size v.nl_len, u32Codec.ser v.nl_len),
           (nlmsgCodec.size v.nl_type, nlmsgCodec.ser v.nl_type),
           (nlmFFlagsCodec.size v.nl_flags, nlmFFlagsCodec.ser v.nl_flags),
           (u32Codec.size v.nl_seq, u32Codec.ser v.nl_seq),
           (u32Codec.size v.nl_pid, u32Codec.ser v.nl_pid),
           (nlEmptyCodec.size v.nl_payload, nlEmptyCodec.ser v.nl_payload)],
      SerOk f.2 := by
  intro f hf
  simp only [List.mem_cons, List.not_mem_nil, or_false] at hf
  rcases hf with h | h | h | h | h | h <;> subst h
  · exact serOk_putInt 4 v.nl_len
  · exact serOk_putInt 2 v.nl_type.toWire
  · exact serOk_putInt 2 v.nl_flags.mask
  · exact serOk_putInt 4 v.nl_seq
  · exact serOk_putInt 4 v.nl_pid
  · exact serOk_nlEmptySer v.nl_payload

theorem serOk_nlmsghdrSer (v : Nlmsghdr Nlmsg NlEmpty) :
    SerOk (nlmsghdrSer nlmsgCodec nlEmptyCodec v) := by
  constructor
  · intro b b' h
    exact serializeStruct_ok_len _ _ _ _ (nlmsghdr_fields_serOk v) h
  · intro b e h
    exact serializeStruct_err_len _ _ _ _ (nlmsghdr_fields_serOk v) h

theorem nlmsgerr_fields_serOk (v : Nlmsgerr Nlmsg) :
    ∀ f ∈ [(i32Codec.size v.error, i32Codec.ser v.error),
           (nlmsghdrSize nlmsgCodec nlEmptyCodec v.nlmsg,
            nlmsghdrSer nlmsgCodec nlEmptyCodec v.nlmsg)],
      SerOk f.2 := by
  intro f hf
  simp only [List.mem_cons, List.not_mem_nil, or_false] at hf
  rcases hf with h | h <;> subst h
  · exact serOk_putInt 4 (Int.toNat (v.error % (2 ^ 32)))
  · exact serOk_nlmsghdrSer v.nlmsg

theorem i32Codec_deser_exact (b : List Nat) (h : b.length = 4) :
    i32Codec.deser b = .ok
      (if bytesToNat b < 2 ^ 31 then (bytesToNat b : Int)
       else (bytesToNat b : Int) - 2 ^ 32) := by
  have hd : i32Codec.deser b = (getInt 4 b).map
      (fun n : Nat => if n < 2 ^ 31 then (n : Int) else (n : Int) - 2 ^ 32) := rfl
  rw [hd, getInt_exact 4 b h]
  rfl

theorem deStrip_eob (sz : Nat) (buffer : List Nat) (pos : Nat)
    (h : buffer.length < pos + sz) : deStrip sz buffer pos = .error .UnexpectedEOB := by
  unfold deStrip
  rw [if_pos h]

theorem deStrip_ok (sz : Nat) (buffer : List Nat) (pos : Nat)
    (h : pos + sz ≤ buffer.length) : deStrip sz buffer pos = .ok (pos + sz) := by
  unfold deStrip
  rw [if_neg (by omega)]

/-- Every run of `Nlmsgerr::deserialize` fails: if the buffer is shorter
than 4 bytes the error-code field fails `UnexpectedEOB`; otherwise the
cursor reaches `mem.len()` after the inner header, and the source's `STRIP`
span of `mem.len()` bytes makes the bounds check `pos + size > mem.len()`
fire (or the inner header's own error propagates). -/
theorem nlmsgerrDe_never_ok (mem : List Nat) :
    ∃ e, nlmsgerrDe nlmsgCodec mem = .error e := by
  by_cases h4 : mem.length < 4
  · refine ⟨.UnexpectedEOB, ?_⟩
    unfold nlmsgerrDe
    simp only [show i32Codec.typeSize = some 4 from rfl, deserializeTypeSize, ebind_ok]
    rw [driveDe_eob _ 4 mem 0 (by omega)]
    simp only [ebind_err]
  · have hwin : ((mem.drop 0).take 4).length = 4 := window_length mem 0 4 (by omega)
    unfold nlmsgerrDe
    simp only [show i32Codec.typeSize = some 4 from rfl, deserializeTypeSize, ebind_ok]
    rw [driveDe_ok _ 4 mem 0 _ (by omega) (i32Codec_deser_exact _ hwin)]
    simp only [ebind_ok]
    cases hinner : nlmsghdrDe nlmsgCodec nlEmptyCodec ((mem.drop (0 + 4)).take (mem.length - 4)) with
    | error e =>
      refine ⟨e, ?_⟩
      rw [driveDe_err _ (mem.length - 4) mem (0 + 4) e (by omega) hinner]
      simp only [ebind_err]
    | ok t =>
      refine ⟨.UnexpectedEOB, ?_⟩
      rw [driveDe_ok _ (mem.length - 4) mem (0 + 4) t (by omega) hinner]
      simp only [ebind_ok]
      rw [deStrip_eob mem.length mem (0 + 4 + (mem.length - 4)) (by omega)]
      simp only [ebind_err]

theorem deEnd_ok (buffer : List Nat) (pos : Nat) (h : buffer.length = pos) :
    deEnd buffer pos = .ok () := by
  unfold deEnd
  rw [if_pos h]

theorem deEnd_err (buffer : List Nat) (pos : Nat) (h : buffer.length ≠ pos) :
    deEnd buffer pos = .error .BufferNotParsed := by
  unfold deEnd
  rw [if_neg h]

/-- Full characterization of `Nlmsghdr::<Nlmsg, NlEmpty>::deserialize` on
buffers long enough for the fixed fields: the declared length `d` is read
from the first four bytes, the trailing strip is `alignto d - d`, and the
outcome depends only on how the buffer length compares with the field sum 16
plus that strip. -/
theorem nlmsghdrDe_char (mem : List Nat) (h16 : 16 ≤ mem.length) :
    nlmsghdrDe nlmsgCodec nlEmptyCodec mem =
      (if mem.length < 16 + (alignto (bytesToNat (mem.take 4)) - bytesToNat (mem.take 4)) then
        .error .UnexpectedEOB
      else if mem.length = 16 + (alignto (bytesToNat (mem.take 4)) - bytesToNat (mem.take 4)) then
        .ok ⟨bytesToNat (mem.take 4), Nlmsg.fromWire (bytesToNat ((mem.drop 4).take 2)),
             ⟨bytesToNat ((mem.drop 6).take 2)⟩, bytesToNat ((mem.drop 8).take 4),
             bytesToNat ((mem.drop 12).take 4), .mk⟩
      else .error .BufferNotParsed) := by
  unfold nlmsghdrDe
  simp only [show u32Codec.typeSize = some 4 from rfl,
    show nlmsgCodec.typeSize = some 2 from rfl,
    show nlmFFlagsCodec.typeSize = some 2 from rfl,
    show nlEmptyCodec.typeSize = some 0 from rfl,
    show nlmsgCodec.typeName = "Nlmsg" from rfl,
    show nlEmptyCodec.typeName = "NlEmpty" from rfl,
    deserializeTypeSize, ebind_ok]
  rw [driveDe_ok u32Codec.deser 4 mem 0 _ (by omega)
    (u32Codec_deser_exact _ (window_length mem 0 4 (by omega)))]
  simp only [ebind_ok, List.drop_zero]
  rw [driveDe_ok nlmsgCodec.deser 2 mem (0 + 4) _ (by omega)
    (nlmsgCodec_deser_exact _ (window_length mem (0 + 4) 2 (by omega)))]
  simp only [ebind_ok]
  rw [driveDe_ok nlmFFlagsCodec.deser 2 mem (0 + 4 + 2) _ (by omega)
    (nlmFFlagsCodec_deser_exact _ (window_length mem (0 + 4 + 2) 2 (by omega)))]
  simp only [ebind_ok]
  rw [driveDe_ok u32Codec.deser 4 mem (0 + 4 + 2 + 2) _ (by omega)
    (u32Codec_deser_exact _ (window_length mem (0 + 4 + 2 + 2) 4 (by omega)))]
  simp only [ebind_ok]
  rw [driveDe_ok u32Codec.deser 4 mem (0 + 4 + 2 + 2 + 4) _ (by omega)
    (u32Codec_deser_exact _ (window_length mem (0 + 4 + 2 + 2 + 4) 4 (by omega)))]
  simp only [ebind_ok]
  rw [driveDe_ok nlEmptyCodec.deser 0 mem (0 + 4 + 2 + 2 + 4 + 4) NlEmpty.mk (by omega) rfl]
  simp only [ebind_ok]
  by_cases hs : mem.length <
      16 + (alignto (bytesToNat (mem.take 4)) - bytesToNat (mem.take 4))
  · rw [deStrip_eob _ mem _ (by omega), if_pos hs]
    simp only [ebind_err]
  · rw [deStrip_ok _ mem _ (by omega), if_neg hs]
    simp only [ebind_ok]
    by_cases he : mem.length =
        16 + (alignto (bytesToNat (mem.take 4)) - bytesToNat (mem.take 4))
    · rw [deEnd_ok mem _ (by omega), if_pos he]
      simp only [ebind_ok]
    · rw [deEnd_err mem _ (by omega), if_neg he]
      simp only [ebind_err]

/-- On buffers shorter than the 16 bytes of fixed fields,
`Nlmsghdr::<Nlmsg, NlEmpty>::deserialize` fails with `UnexpectedEOB` at the
first field whose window does not fit. -/
theorem nlmsghdrDe_short (mem : List Nat) (h : mem.length < 16) :
    nlmsghdrDe nlmsgCodec nlEmptyCodec mem = .error .UnexpectedEOB := by
  unfold nlmsghdrDe
  simp only [show u32Codec.typeSize = some 4 from rfl,
    show nlmsgCodec.typeSize = some 2 from rfl,
    show nlmFFlagsCodec.typeSize = some 2 from rfl,
    show nlEmptyCodec.typeSize = some 0 from rfl,
    show nlmsgCodec.typeName = "Nlmsg" from rfl,
    show nlEmptyCodec.typeName = "NlEmpty" from rfl,
    deserializeTypeSize, ebind_ok]
  by_cases h4 : mem.length < 4
  · rw [driveDe_eob _ 4 mem 0 (by omega)]
    simp only [ebind_err]
  rw [driveDe_ok u32Codec.deser 4 mem 0 _ (by omega)
    (u32Codec_deser_exact _ (window_length mem 0 4 (by omega)))]
  simp only [ebind_ok, List.drop_zero]
  by_cases h6 : mem.length < 6
  · rw [driveDe_eob _ 2 mem (0 + 4) (by omega)]
    simp only [ebind_err]
  rw [driveDe_ok nlmsgCodec.deser 2 mem (0 + 4) _ (by omega)
    (nlmsgCodec_deser_exact _ (window_length mem (0 + 4) 2 (by omega)))]
  simp only [ebind_ok]
  by_cases h8 : mem.length < 8
  · rw [driveDe_eob _ 2 mem (0 + 4 + 2) (by omega)]
    simp only [ebind_err]
  rw [driveDe_ok nlmFFlagsCodec.deser 2 mem (0 + 4 + 2) _ (by omega)
    (nlmFFlagsCodec_deser_exact _ (window_length mem (0 + 4 + 2) 2 (by omega)))]
  simp only [ebind_ok]
  by_cases h12 : mem.length < 12
  · rw [driveDe_eob _ 4 mem (0 + 4 + 2 + 2) (by omega)]
    simp only [ebind_err]
  rw [driveDe_ok u32Codec.deser 4 mem (0 + 4 + 2 + 2) _ (by omega)
    (u32Codec_deser_exact _ (window_length mem (0 + 4 + 2 + 2) 4 (by omega)))]
  simp only [ebind_ok]
  rw [driveDe_eob _ 4 mem (0 + 4 + 2 + 2 + 4) (by omega)]
  simp only [ebind_err]

/-- When the payload type reports no static size, the header deserializer
parses the five fixed fields and then fails with the message-carrying error
produced by `deserialize_type_size!` naming the payload type. -/
theorem nlmsghdrDe_noStaticSize {P : Type} (pc : NlCodec P) (mem : List Nat)
    (hts : pc.typeSize = none) (h16 : 16 ≤ mem.length) :
    nlmsghdrDe nlmsgCodec pc mem =
      .error (.Msg ("Type " ++ pc.typeName ++ " has no static size associated with it")) := by
  unfold nlmsghdrDe
  rw [hts]
  simp only [show u32Codec.typeSize = some 4 from rfl,
    show nlmsgCodec.typeSize = some 2 from rfl,
    show nlmFFlagsCodec.typeSize = some 2 from rfl,
    show nlmsgCodec.typeName = "Nlmsg" from rfl,
    deserializeTypeSize, ebind_ok]
  rw [driveDe_ok u32Codec.deser 4 mem 0 _ (by omega)
    (u32Codec_deser_exact _ (window_length mem 0 4 (by omega)))]
  simp only [ebind_ok, List.drop_zero]
  rw [driveDe_ok nlmsgCodec.deser 2 mem (0 + 4) _ (by omega)
    (nlmsgCodec_deser_exact _ (window_length mem (0 + 4) 2 (by omega)))]
  simp only [ebind_ok]
  rw [driveDe_ok nlmFFlagsCodec.deser 2 mem (0 + 4 + 2) _ (by omega)
    (nlmFFlagsCodec_deser_exact _ (window_length mem (0 + 4 + 2) 2 (by omega)))]
  simp only [ebind_ok]
  rw [driveDe_ok u32Codec.deser 4 mem (0 + 4 + 2 + 2) _ (by omega)
    (u32Codec_deser_exact _ (window_length mem (0 + 4 + 2 + 2) 4 (by omega)))]
  simp only [ebind_ok]
  rw [driveDe_ok u32Codec.deser 4 mem (0 + 4 + 2 + 2 + 4) _ (by omega)
    (u32Codec_deser_exact _ (window_length mem (0 + 4 + 2 + 2 + 4) 4 (by omega)))]
  simp only [ebind_ok, ebind_err]

theorem num_to_set_mask_in_range (n : Nat) (h1 : 1 ≤ n) (h2 : n ≤ 32) :
    num_to_set_mask n = some (2 ^ (n - 1)) := by
  unfold num_to_set_mask u32CheckedSub u32CheckedShl
  rw [if_pos (by omega)]
  show u32CheckedShl 1 (n - 1) = _
  unfold u32CheckedShl
  rw [if_pos (by omega)]
  have hlt : 2 ^ (n - 1) < 2 ^ 32 := Nat.pow_lt_pow_right (by omega) (by omega)
  rw [Nat.shiftLeft_eq, one_mul, Nat.mod_eq_of_lt hlt]

theorem pow_and_eq_iff_testBit (k m : Nat) :
    ((2 ^ k &&& m == 2 ^ k) = m.testBit k) := by
  rw [Nat.two_pow_and]
  cases hb : m.testBit k with
  | true => simp
  | false =>
    simp only [Bool.toNat_false, Nat.mul_zero]
    have hp : 0 < 2 ^ k := Nat.pow_pos (by omega)
    simp only [beq_iff_eq, beq_eq_false_iff_ne, ne_eq]
    omega

theorem nfLogAttr_roundtrip (i : Nat) : (NfLogAttr.fromWire i).toWire = i := by
  unfold NfLogAttr.fromWire
  by_cases h1 : i = 1
  · rw [if_pos h1, h1]
    rfl
  rw [if_neg h1]
  by_cases h2 : i = 2
  · rw [if_pos h2, h2]
    rfl
  rw [if_neg h2]
  by_cases h3 : i = 3
  · rw [if_pos h3, h3]
    rfl
  rw [if_neg h3]
  by_cases h4 : i = 4
  · rw [if_pos h4, h4]
    rfl
  rw [if_neg h4]
  by_cases h5 : i = 5
  · rw [if_pos h5, h5]
    rfl
  rw [if_neg h5]
  by_cases h6 : i = 6
  · rw [if_pos h6, h6]
    rfl
  rw [if_neg h6]
  by_cases h7 : i = 7
  · rw [if_pos h7, h7]
    rfl
  rw [if_neg h7]
  by_cases h8 : i = 8
  · rw [if_pos h8, h8]
    rfl
  rw [if_neg h8]
  by_cases h9 : i = 9
  · rw [if_pos h9, h9]
    rfl
  rw [if_neg h9]
  by_cases h10 : i = 10
  · rw [if_pos h10, h10]
    rfl
  rw [if_neg h10]
  by_cases h11 : i = 11
  · rw [if_pos h11, h11]
    rfl
  rw [if_neg h11]
  by_cases h12 : i = 12
  · rw [if_pos h12, h12]
    rfl
  rw [if_neg h12]
  by_cases h13 : i = 13
  · rw [if_pos h13, h13]
    rfl
  rw [if_neg h13]
  by_cases h14 : i = 14
  · rw [if_pos h14, h14]
    rfl
  rw [if_neg h14]
  by_cases h15 : i = 15
  · rw [if_pos h15, h15]
    rfl
  rw [if_neg h15]
  by_cases h16 : i = 16
  · rw [if_pos h16, h16]
    rfl
  rw [if_neg h16]
  by_cases h17 : i = 17
  · rw [if_pos h17, h17]
    rfl
  rw [if_neg h17]
  by_cases h18 : i = 18
  · rw [if_pos h18, h18]
    rfl
  rw [if_neg h18]
  by_cases h19 : i = 19
  · rw [if_pos h19, h19]
    rfl
  rw [if_neg h19]
  rfl

theorem nfLogCfg_roundtrip (i : Nat) : (NfLogCfg.fromWire i).toWire = i := by
  unfold NfLogCfg.fromWire
  split_ifs <;> first
  | rfl
  | (rename_i h; rw [h]; rfl)

theorem netfilterMsg_roundtrip (i : Nat) : (NetfilterMsg.fromWire i).toWire = i := by
  unfold NetfilterMsg.fromWire
  split_ifs <;> first
  | rfl
  | (rename_i h; rw [h]; rfl)

theorem logCmd_roundtrip (i : Nat) : (LogCmd.fromWire i).toWire = i := by
  unfold LogCmd.fromWire
  split_ifs <;> first
  | rfl
  | (rename_i h; rw [h]; rfl)

theorem logCopyMode_roundtrip (i : Nat) : (LogCopyMode.fromWire i).toWire = i := by
  unfold LogCopyMode.fromWire
  split_ifs <;> first
  | rfl
  | (rename_i h; rw [h]; rfl)

/-!
Claim theorems.
-/

/-- C1: the claim states that serializing any codec value into a buffer of
`aligned_size()` bytes and deserializing the result reconstructs the value,
explicitly including `Nlmsgerr`.  The code violates this: `err.rs` passes
`mem.len()` as the `STRIP` span of `Nlmsgerr::deserialize`, so the bounds
check `pos + size > buffer.len()` fires on every input and deserialization
never succeeds.  This theorem evaluates the code at the failing input: the
well-formed packet `err0` serializes fine into its 20 aligned bytes, but
deserializing those bytes returns `UnexpectedEOB`; the final conjunct shows
every input fails. -/
theorem c1_nlmsgerr_roundtrip_fails :
    nlmsgerrSize nlmsgCodec err0 = 20 ∧
    alignto (nlmsgerrSize nlmsgCodec err0) = 20 ∧
    nlmsgerrSer nlmsgCodec err0 (List.replicate 20 0) = .ok errBytes ∧
    nlmsgerrDe nlmsgCodec errBytes = .error .UnexpectedEOB ∧
    (∀ mem : List Nat, ∃ e, nlmsgerrDe nlmsgCodec mem = .error e) :=
  ⟨rfl, rfl, by decide, by decide, nlmsgerrDe_never_ok⟩

/-- C2: on every failure path of the field-driving serialization engine, the
buffer attached to the returned error has the same total length as the
buffer the caller supplied: concretely for the two drivers in the sources
(`Nlmsghdr` and `Nlmsgerr` serialization) and generically for any
`serialize!`-style field list whose field serializers preserve buffer
length. -/
theorem c2_error_buffer_conservation :
    (∀ (v : Nlmsghdr Nlmsg NlEmpty) (buffer : List Nat) (e : SerError),
      nlmsghdrSer nlmsgCodec nlEmptyCodec v buffer = .error e →
      e.buffer.length = buffer.length) ∧
    (∀ (v : Nlmsgerr Nlmsg) (buffer : List Nat) (e : SerError),
      nlmsgerrSer nlmsgCodec v buffer = .error e →
      e.buffer.length = buffer.length) ∧
    (∀ (fields : List (Nat × (List Nat → Except SerError (List Nat))))
        (padAmt : Nat) (buffer : List Nat) (e : SerError),
      (∀ f ∈ fields, SerOk f.2) →
      serializeStruct fields padAmt buffer = .error e →
      e.buffer.length = buffer.length) := by
  refine ⟨?_, ?_, ?_⟩
  · intro v buffer e h
    exact serializeStruct_err_len _ _ _ _ (nlmsghdr_fields_serOk v) h
  · intro v buffer e h
    exact serializeStruct_err_len _ _ _ _ (nlmsgerr_fields_serOk v) h
  · intro fields padAmt buffer e hf h
    exact serializeStruct_err_len _ _ _ _ hf h

/-- Witness for C2: serializing `hdr0` into a buffer one byte too short
(15 bytes) fails with `UnexpectedEOB`, and the buffer attached to the error
has the original 15-byte length. -/
theorem c2_witness :
    nlmsghdrSer nlmsgCodec nlEmptyCodec hdr0 (List.replicate 15 0) =
      .error (.UnexpectedEOB [16, 0, 0, 0, 1, 0, 0, 0, 0, 0, 0, 0, 0, 0, 0]) ∧
    (SerError.UnexpectedEOB
        [16, 0, 0, 0, 1, 0, 0, 0, 0, 0, 0, 0, 0, 0, 0]).buffer.length =
      (List.replicate 15 (0 : Nat)).length :=
  ⟨by decide, c2_error_buffer_conservation.1 hdr0 (List.replicate 15 0) _ (by decide)⟩

/-- C3: during serialization of a padded value (`aligned_size() > size()`,
cursor at `size()` after the fields, buffer of the aligned length), the
`PAD` arm zero-fills exactly the final `aligned_size() - size()` bytes —
the region at the cursor — leaves every field byte unchanged, and advances
the cursor to the aligned length.  The hypothesis
`alignto sz - sz ≤ sz` restricts to values at least as large as their own
pad; the repository's padded types (sizes at least 16, pads at most 3)
always satisfy it. -/
theorem c3_pad_step (sz : Nat) (buffer : List Nat)
    (hpad : sz < alignto sz) (hle : alignto sz - sz ≤ sz)
    (hlen : buffer.length = alignto sz) :
    drivePad (alignto sz - sz) buffer sz =
      .ok (buffer.take sz ++ List.replicate (alignto sz - sz) 0, alignto sz) := by
  have hsz : sz ≤ alignto sz := by omega
  have hm : (buffer.drop (alignto sz - sz)).length = sz := by
    simp only [List.length_drop]
    omega
  have hpf : padFn (alignto sz - sz) (buffer.drop (alignto sz - sz)) =
      (buffer.drop (alignto sz - sz)).take (sz - (alignto sz - sz)) ++
        List.replicate (alignto sz - sz) 0 := by
    unfold padFn
    rw [hm]
    have hmin : min (alignto sz - sz) sz = alignto sz - sz := by omega
    rw [hmin]
  unfold drivePad
  rw [if_neg (by omega), hpf, ← List.append_assoc]
  have ht : buffer.take (alignto sz - sz) ++
      (buffer.drop (alignto sz - sz)).take (sz - (alignto sz - sz)) = buffer.take sz := by
    rw [← List.take_add]
    congr 1
    omega
  rw [ht]
  have hpos : sz + (alignto sz - sz) = alignto sz := by omega
  rw [hpos]

/-- Witness for C3: a size-6 value padded to 8 in an 8-byte buffer: the two
pad bytes are zeroed, the six field bytes stay, the cursor ends at 8. -/
theorem c3_witness :
    (6 : Nat) < alignto 6 ∧ alignto 6 - 6 ≤ 6 ∧
    ([1, 2, 3, 4, 5, 6, 7, 8] : List Nat).length = alignto 6 ∧
    drivePad (alignto 6 - 6) [1, 2, 3, 4, 5, 6, 7, 8] 6 =
      .ok ([1, 2, 3, 4, 5, 6, 0, 0], alignto 6) :=
  ⟨by decide, by decide, by decide,
   c3_pad_step 6 [1, 2, 3, 4, 5, 6, 7, 8] (by decide) (by decide) (by decide)⟩

/-- C4: for every enumerated constant type generated by `impl_var!` and
every integer of its wire width, the from-wire conversion is total by
construction and converting back yields the input, including for integers
bound to no named variant (shown also concretely at 99). -/
theorem c4_constant_roundtrip (i : Nat) (_hi : i < 2 ^ 16) :
    (NfLogAttr.fromWire i).toWire = i ∧
    (NfLogCfg.fromWire i).toWire = i ∧
    (NetfilterMsg.fromWire i).toWire = i ∧
    (i < 2 ^ 8 → (LogCmd.fromWire i).toWire = i ∧ (LogCopyMode.fromWire i).toWire = i) ∧
    NfLogCfg.fromWire 99 = .UnrecognizedVariant 99 :=
  ⟨nfLogAttr_roundtrip i, nfLogCfg_roundtrip i, netfilterMsg_roundtrip i,
   fun _ => ⟨logCmd_roundtrip i, logCopyMode_roundtrip i⟩, rfl⟩

/-- Witness for C4 at the unrecognized wire value 99. -/
theorem c4_witness :
    (99 : Nat) < 2 ^ 16 ∧
    ((NfLogAttr.fromWire 99).toWire = 99 ∧
     (NfLogCfg.fromWire 99).toWire = 99 ∧
     (NetfilterMsg.fromWire 99).toWire = 99 ∧
     ((99 : Nat) < 2 ^ 8 →
       (LogCmd.fromWire 99).toWire = 99 ∧ (LogCopyMode.fromWire 99).toWire = 99) ∧
     NfLogCfg.fromWire 99 = .UnrecognizedVariant 99) :=
  ⟨by decide, c4_constant_roundtrip 99 (by decide)⟩

/-- C5: the `impl_trait!` wrapper's from-wire conversion tries the candidate
enums in declaration order and takes the first whose conversion is not the
unrecognized variant, falling back to the raw-holding case; in particular,
with `LogCmd` and `LogCopyMode` both binding wire value 1, whichever is
declared first wins (last three conjuncts, including the sources' actual
single-candidate wrapper `LogCfgCmdWrapper`). -/
theorem c5_wrapper_precedence {α β : Type} (ea : ConstEnum α) (eb : ConstEnum β) (v : Nat) :
    (ea.isUnrecognized (ea.fromWire v) = false →
      wrapper2From ea eb v = .A (ea.fromWire v)) ∧
    (ea.isUnrecognized (ea.fromWire v) = true →
      eb.isUnrecognized (eb.fromWire v) = false →
      wrapper2From ea eb v = .B (eb.fromWire v)) ∧
    (ea.isUnrecognized (ea.fromWire v) = true →
      eb.isUnrecognized (eb.fromWire v) = true →
      wrapper2From ea eb v = .UnrecognizedConst v) ∧
    wrapper2From logCmdCE logCopyModeCE 1 = .A LogCmd.Bind ∧
    wrapper2From logCopyModeCE logCmdCE 1 = .A LogCopyMode.Meta ∧
    LogCfgCmdWrapper.fromWire 1 = .LogCmd LogCmd.Bind := by
  refine ⟨?_, ?_, ?_, by decide, by decide, by decide⟩
  · intro h
    simp [wrapper2From, h]
  · intro h1 h2
    simp [wrapper2From, h1, h2]
  · intro h1 h2
    simp [wrapper2From, h1, h2]

/-- Witness for C5: wire value 0 is unrecognized by `LogCmd` but recognized
by `LogCopyMode`, so the second candidate is selected. -/
theorem c5_witness :
    logCmdCE.isUnrecognized (logCmdCE.fromWire 0) = true ∧
    logCopyModeCE.isUnrecognized (logCopyModeCE.fromWire 0) = false ∧
    wrapper2From logCmdCE logCopyModeCE 0 = .B (logCopyModeCE.fromWire 0) :=
  ⟨by decide, by decide,
   (c5_wrapper_precedence logCmdCE logCopyModeCE 0).2.1 (by decide) (by decide)⟩

/-- C6 counterexample: the claim says a declared length shorter than the sum
of the parsed fields fails with `UnexpectedEOB`; but the 16-byte buffer
`shortLenBytes` declares length 12 (< 16) and deserializes successfully —
the deserializer never compares the declared length against the field sum,
it only uses `alignto(nl_len) - nl_len` (here 0) as the trailing strip. -/
theorem c6_counterexample :
    bytesToNat (shortLenBytes.take 4) = 12 ∧ (12 : Nat) < 16 ∧
    nlmsghdrDe nlmsgCodec nlEmptyCodec shortLenBytes = .ok shortLenHdr ∧
    nlmsghdrDe nlmsgCodec nlEmptyCodec shortLenBytes ≠ .error .UnexpectedEOB := by
  refine ⟨by decide, by decide, by decide, ?_⟩
  intro h
  rw [show nlmsghdrDe nlmsgCodec nlEmptyCodec shortLenBytes = .ok shortLenHdr
    from by decide] at h
  exact Except.noConfusion h

/-- C6 (amended): the header deserializer reads the fixed fields in wire
order and strips `alignto(declared) - declared` trailing bytes computed from
the received declared-length field; it fails `UnexpectedEOB` exactly when
the buffer is shorter than the field sum (16) plus that computed padding —
a declared length merely shorter than the field sum is not itself detected
(the parse succeeds when the buffer length matches fields plus padding, and
longer buffers fail `BufferNotParsed`). -/
theorem c6_deserialize_strip (mem : List Nat) :
    (mem.length < 16 →
      nlmsghdrDe nlmsgCodec nlEmptyCodec mem = .error .UnexpectedEOB) ∧
    (16 ≤ mem.length →
      (nlmsghdrDe nlmsgCodec nlEmptyCodec mem = .error .UnexpectedEOB ↔
        mem.length <
          16 + (alignto (bytesToNat (mem.take 4)) - bytesToNat (mem.take 4))) ∧
      (mem.length =
          16 + (alignto (bytesToNat (mem.take 4)) - bytesToNat (mem.take 4)) →
        nlmsghdrDe nlmsgCodec nlEmptyCodec mem =
          .ok ⟨bytesToNat (mem.take 4),
               Nlmsg.fromWire (bytesToNat ((mem.drop 4).take 2)),
               ⟨bytesToNat ((mem.drop 6).take 2)⟩,
               bytesToNat ((mem.drop 8).take 4),
               bytesToNat ((mem.drop 12).take 4), .mk⟩) ∧
      (16 + (alignto (bytesToNat (mem.take 4)) - bytesToNat (mem.take 4)) <
          mem.length →
        nlmsghdrDe nlmsgCodec nlEmptyCodec mem = .error .BufferNotParsed)) := by
  constructor
  · exact nlmsghdrDe_short mem
  · intro h16
    have hchar := nlmsghdrDe_char mem h16
    refine ⟨?_, ?_, ?_⟩
    · rw [hchar]
      by_cases hlt : mem.length <
          16 + (alignto (bytesToNat (mem.take 4)) - bytesToNat (mem.take 4))
      · rw [if_pos hlt]
        simp [hlt]
      · rw [if_neg hlt]
        constructor
        · intro h
          split at h
          · cases h
          · cases h
        · intro h
          exact absurd h hlt
    · intro he
      rw [hchar, if_neg (by omega), if_pos he]
    · intro hgt
      rw [hchar, if_neg (by omega), if_neg (by omega)]

/-- Witness for C6 (amended): the canonical 16-byte no-op buffer has
declared length 16, strip 0, and parses to the expected header. -/
theorem c6_witness :
    (16 : Nat) ≤ nlNoopBytes.length ∧
    nlNoopBytes.length =
      16 + (alignto (bytesToNat (nlNoopBytes.take 4)) - bytesToNat (nlNoopBytes.take 4)) ∧
    nlmsghdrDe nlmsgCodec nlEmptyCodec nlNoopBytes =
      .ok ⟨16, Nlmsg.Noop, ⟨0⟩, 0, 0, .mk⟩ :=
  ⟨by decide, by decide,
   ((c6_deserialize_strip nlNoopBytes).2 (by decide)).2.1 (by decide)⟩

/-- C7: serializing the header built by
`Nlmsghdr::new(None, Nlmsg::Noop, NlmFFlags::empty(), None, None, NlEmpty)`
into a 16-byte buffer succeeds and yields 16 bytes whose first four
(native order) read 16, whose next two read 1, and whose remaining ten are
zero; deserializing those bytes reproduces a header with declared length 16,
type tag `Noop` (wire value 1), empty flags and the empty payload. -/
theorem c7_noop_header_scenarios :
    nlmsghdrSize nlmsgCodec nlEmptyCodec hdr0 = 16 ∧
    hdr0.nl_len = 16 ∧ hdr0.nl_type = Nlmsg.Noop ∧
    hdr0.nl_flags = NlmFFlags.empty ∧ hdr0.nl_payload = NlEmpty.mk ∧
    nlmsghdrSer nlmsgCodec nlEmptyCodec hdr0 (List.replicate 16 0) = .ok nlNoopBytes ∧
    nlNoopBytes.length = 16 ∧
    bytesToNat (nlNoopBytes.take 4) = 16 ∧
    bytesToNat ((nlNoopBytes.drop 4).take 2) = 1 ∧
    Nlmsg.toWire Nlmsg.Noop = 1 ∧
    nlNoopBytes.drop 6 = List.replicate 10 0 ∧
    nlmsghdrDe nlmsgCodec nlEmptyCodec nlNoopBytes = .ok hdr0 := by
  decide

/-- C8: the `END` arms of the two drivers: serialization yields
`BufferNotFilled` (carrying the buffer) exactly when the final cursor
differs from the buffer's length, deserialization yields `BufferNotParsed`
under the same mismatch; concretely, driving `hdr0` into a 17-byte buffer
fills 16 bytes and fails `BufferNotFilled`, and a 17-byte source leaves one
unconsumed byte and fails `BufferNotParsed`. -/
theorem c8_end_consistency_checks :
    (∀ (buffer : List Nat) (pos : Nat),
      serEnd buffer pos =
        (if buffer.length = pos then .ok buffer
         else .error (.BufferNotFilled buffer)) ∧
      deEnd buffer pos =
        (if buffer.length = pos then .ok () else .error .BufferNotParsed)) ∧
    nlmsghdrSer nlmsgCodec nlEmptyCodec hdr0 (List.replicate 17 0) =
      .error (.BufferNotFilled (nlNoopBytes ++ [0])) ∧
    nlmsghdrDe nlmsgCodec nlEmptyCodec (nlNoopBytes ++ [99]) =
      .error .BufferNotParsed :=
  ⟨fun buffer pos => ⟨rfl, rfl⟩, by decide, by decide⟩

/-- C9: when a field's static size is required but its type reports none,
`deserialize_type_size!` returns a `DeError::Msg` naming the type (first
conjunct, the mechanism itself — total by construction, so no panic), and
`Nlmsghdr::deserialize` with such a payload type surfaces exactly that
error after parsing the fixed fields (second conjunct). -/
theorem c9_no_static_size {P : Type} (pc : NlCodec P) (mem : List Nat)
    (hts : pc.typeSize = none) (h16 : 16 ≤ mem.length) :
    (∀ name : String,
      deserializeTypeSize name none =
        .error (.Msg ("Type " ++ name ++ " has no static size associated with it"))) ∧
    nlmsghdrDe nlmsgCodec pc mem =
      .error (.Msg ("Type " ++ pc.typeName ++ " has no static size associated with it")) :=
  ⟨fun _ => rfl, nlmsghdrDe_noStaticSize pc mem hts h16⟩

/-- Witness for C9: a variable-length payload codec with no static size
makes the header deserializer fail with the message naming `Vec<u8>`. -/
theorem c9_witness :
    varLenCodec.typeSize = none ∧
    (16 : Nat) ≤ (List.replicate 16 (0 : Nat)).length ∧
    nlmsghdrDe nlmsgCodec varLenCodec (List.replicate 16 0) =
      .error (.Msg ("Type " ++ "Vec<u8>" ++ " has no static size associated with it")) :=
  ⟨rfl, by decide, (c9_no_static_size varLenCodec (List.replicate 16 0) rfl (by decide)).2⟩

/-- C10: bitmask flag numbers are 1-based: for 1 ≤ n ≤ 32 the flag converts
to the single-bit mask `2 ^ (n - 1)` and `is_set` tests exactly that bit;
bit number 0 (u32 subtraction underflow) and numbers above 32 (overshift)
are arithmetic overflows — `none` in the checked embedding — hence outside
the supported domain. -/
theorem c10_bitflag_one_based (n m : Nat) (h1 : 1 ≤ n) (h2 : n ≤ 32)
    (_hm : m < 2 ^ 32) :
    U32BitFlag.intoBitmask n = some (2 ^ (n - 1)) ∧
    U32Bitmask.is_set m n = some (m.testBit (n - 1)) ∧
    num_to_set_mask 0 = none ∧
    (∀ k, 32 < k → num_to_set_mask k = none) := by
  have hmask := num_to_set_mask_in_range n h1 h2
  refine ⟨hmask, ?_, rfl, ?_⟩
  · unfold U32Bitmask.is_set
    rw [hmask]
    show some (2 ^ (n - 1) &&& m == 2 ^ (n - 1)) = some (m.testBit (n - 1))
    rw [pow_and_eq_iff_testBit]
  · intro k hk
    unfold num_to_set_mask u32CheckedSub
    rw [if_pos (by omega)]
    show u32CheckedShl 1 (k - 1) = none
    unfold u32CheckedShl
    rw [if_neg (by omega)]

/-- Witness for C10 at flag number 5 over mask 16 = 2^4. -/
theorem c10_witness :
    (1 : Nat) ≤ 5 ∧ (5 : Nat) ≤ 32 ∧ (16 : Nat) < 2 ^ 32 ∧
    U32BitFlag.intoBitmask 5 = some 16 ∧
    U32Bitmask.is_set 16 5 = some true :=
  ⟨by decide, by decide, by decide,
   (c10_bitflag_one_based 5 16 (by decide) (by decide) (by decide)).1,
   (c10_bitflag_one_based 5 16 (by decide) (by decide) (by decide)).2.1⟩
